import Mathlib

/-!
Verification of the wol-command-center registry service (src/main.py).

The embedding below translates the Python handlers into pure Lean
functions.  Request bodies are records of `Option String` fields
(`none` models an absent JSON key).  Network effects (the priming ping,
`get_mac_address`, `send_magic_packet`) are modelled by explicit oracle
values describing the outcome the environment produced.  Durable
storage is modelled by a `saved` flag on each handler result (the
handler called `save_data()` iff the flag is true) together with a JSON
value type for the snapshot format.
-/

namespace Wol

/-- A registry entry, mirroring the machine dict of main.py
(keys id, ip, mac, name, user, status). -/
structure Machine where
  id : Nat
  ip : String
  mac : String
  name : String
  user : String
  status : String
deriving DecidableEq, Inhabited

/-- Python str.isspace(), the character class str.strip() removes:
U+0009 to U+000D, U+001C to U+001F, space, U+0085, U+00A0, U+1680,
U+2000 to U+200A, U+2028, U+2029, U+202F, U+205F and U+3000. -/
def py_isspace (c : Char) : Bool :=
  (0x09 ≤ c.toNat && c.toNat ≤ 0x0d) ||
  (0x1c ≤ c.toNat && c.toNat ≤ 0x1f) ||
  c.toNat = 0x20 ||
  c.toNat = 0x85 ||
  c.toNat = 0xa0 ||
  c.toNat = 0x1680 ||
  (0x2000 ≤ c.toNat && c.toNat ≤ 0x200a) ||
  c.toNat = 0x2028 ||
  c.toNat = 0x2029 ||
  c.toNat = 0x202f ||
  c.toNat = 0x205f ||
  c.toNat = 0x3000

/-- Python str.strip(): remove leading and trailing whitespace. -/
def strip (s : String) : String :=
  ⟨((s.data.dropWhile py_isspace).reverse.dropWhile py_isspace).reverse⟩

/-- main.py lines 31-42: a MAC string is rejected when falsy (empty),
when it is the all-zero sentinel, or when shorter than 17 characters. -/
def is_valid_mac (mac_addr : String) : Bool :=
  if mac_addr = "" then false
  else if mac_addr = "00:00:00:00:00:00" then false
  else if mac_addr.length < 17 then false
  else true

/-- `is_valid_mac` applied to the Optional[str] result of
get_mac_address: Python `is_valid_mac(None)` is falsy at `not mac_addr`. -/
def is_valid_mac_opt (r : Option String) : Bool :=
  match r with
  | some d => is_valid_mac d
  | none => false

/-- Outcome of the detection block (priming ping + get_mac_address):
either the whole block raised, or get_mac_address returned a value
(possibly None).  A failure of the priming ping alone is swallowed by
the inner try and therefore not represented. -/
inductive DetectResult where
  | raises
  | value (r : Option String)
deriving DecidableEq

/-- Python `x or default` on an optional string field: None and the
empty string are falsy. -/
def pyOr (x : Option String) (d : String) : String :=
  match x with
  | none => d
  | some s => if s = "" then d else s

/-- Request body of POST /api/add. -/
structure AddRequest where
  ip : Option String
  mac : Option String
  name : Option String
  user : Option String
deriving DecidableEq

/-- main.py lines 93-96: the fresh id is 1 for an empty registry and
max existing id + 1 otherwise (the fold computes the maximum of the
ids, all of which are nonnegative). -/
def new_id (ms : List Machine) : Nat :=
  match ms with
  | [] => 1
  | _ :: _ => (ms.map Machine.id).foldl Nat.max 0 + 1

/-- main.py lines 104-123, the detection part of add_machine: on a
raised exception mac keeps its prior value (empty here) with a failure
message; on a detected value the validity filter decides between
adopting it and a warning. -/
def resolve_add (mac0 : String) (det : DetectResult) : String × String :=
  match det with
  | .raises => (mac0, "Machine added, but MAC detection failed.")
  | .value (some d) =>
    if is_valid_mac d then
      (d, "Machine added. MAC address auto-detected: " ++ d)
    else
      (mac0, "Machine added. Warning: Could not auto-detect valid MAC address.")
  | .value none =>
    (mac0, "Machine added. Warning: Could not auto-detect valid MAC address.")

/-- Result of the add handler: the new registry, the machine and
message of the JSON response, and whether save_data was called. -/
structure AddResult where
  machines : List Machine
  machine : Machine
  message : String
  saved : Bool
deriving DecidableEq

/-- main.py lines 89-136 (add_machine): trim ip and mac from the
request, resolve the MAC only when ip is non-empty and mac empty,
default name and user through Python `or`, append, save. -/
def add_machine (ms : List Machine) (data : AddRequest) (det : DetectResult) : AddResult :=
  let nid := new_id ms
  let ip := strip (data.ip.getD "")
  let mac0 := strip (data.mac.getD "")
  let r := if ip ≠ "" ∧ mac0 = "" then resolve_add mac0 det
           else (mac0, "Machine added successfully.")
  let new_machine : Machine :=
    { id := nid, ip := ip, mac := r.1,
      name := pyOr data.name "New Host",
      user := pyOr data.user "Unknown",
      status := "offline" }
  { machines := ms ++ [new_machine], machine := new_machine,
    message := r.2, saved := true }

/-- Result of the delete handler: the filtered registry, the HTTP
status code, the body (always the success body), and the save flag. -/
structure DeleteResult where
  machines : List Machine
  code : Nat
  success_body : Bool
  saved : Bool
deriving DecidableEq

/-- main.py lines 138-143 (delete_machine): filter out the id,
unconditionally save and answer success. -/
def delete_machine (ms : List Machine) (machine_id : Nat) : DeleteResult :=
  { machines := ms.filter (fun m => m.id ≠ machine_id),
    code := 200, success_body := true, saved := true }

/-- Request body of PUT /api/update/<id>. -/
structure UpdateRequest where
  ip : Option String
  mac : Option String
  name : Option String
  user : Option String
deriving DecidableEq

/-- main.py lines 160-178, the re-resolution block of update_machine:
on a raised exception mac is blanked and the message keeps its initial
success text; a detected value passes the validity filter or mac is
blanked with a warning. -/
def resolve_update (m1 : Machine) (det : DetectResult) : Machine × String :=
  match det with
  | .raises => ({ m1 with mac := "" }, "Machine updated successfully.")
  | .value (some d) =>
    if is_valid_mac d then
      ({ m1 with mac := d }, "Updated. MAC address auto-detected: " ++ d)
    else
      ({ m1 with mac := "" }, "Updated. Warning: Could not resolve valid MAC address.")
  | .value none =>
    ({ m1 with mac := "" }, "Updated. Warning: Could not resolve valid MAC address.")

/-- main.py lines 150-184, the body of the update loop for the matched
machine: set ip from the request (untrimmed, defaulting to the old
value), then handle mac — absent key leaves mac alone; a supplied mac
is stripped, and an empty stripped mac with a non-empty ip triggers
re-resolution while a non-empty stripped mac is stored as is — and
finally set user and name (defaulting to the old values). -/
def apply_update (m : Machine) (data : UpdateRequest) (det : DetectResult) : Machine × String :=
  let m1 : Machine := { m with ip := data.ip.getD m.ip }
  let p : Machine × String :=
    match data.mac with
    | none => (m1, "Machine updated successfully.")
    | some new_mac =>
      let clean_mac := strip new_mac
      if clean_mac = "" ∧ m1.ip ≠ "" then resolve_update m1 det
      else ({ m1 with mac := clean_mac }, "Machine updated successfully.")
  ({ p.1 with user := data.user.getD p.1.user, name := data.name.getD p.1.name }, p.2)

/-- Result of the update handler: registry, whether a machine with the
id was found, the machine and message of the response (for the found
case), HTTP status code, and the save flag. -/
structure UpdateResult where
  machines : List Machine
  found : Bool
  machine : Option Machine
  message : String
  code : Nat
  saved : Bool
deriving DecidableEq

/-- main.py lines 145-188 (update_machine): walk the registry, update
the first machine carrying the id in place, save and answer with it;
with no match answer 404 without saving. -/
def update_machine (ms : List Machine) (machine_id : Nat) (data : UpdateRequest) (det : DetectResult) : UpdateResult :=
  match ms with
  | [] =>
    { machines := [], found := false, machine := none,
      message := "Not found", code := 404, saved := false }
  | m :: rest =>
    if m.id = machine_id then
      let p := apply_update m data det
      { machines := p.1 :: rest, found := true, machine := some p.1,
        message := p.2, code := 200, saved := true }
    else
      let r := update_machine rest machine_id data det
      { r with machines := m :: r.machines }

/-- Outcome of one async_ping call of the prober for one machine:
the call returned with is_alive, or it raised. -/
inductive PingResult where
  | ok (is_alive : Bool)
  | raises
deriving DecidableEq

/-- main.py lines 55-59: the status written for one probe outcome. -/
def probe_status (r : PingResult) : String :=
  match r with
  | .ok true => "online"
  | .ok false => "offline"
  | .raises => "error"

/-- main.py lines 48-61, one cycle of check_machine_status over the
snapshot of the registry: each machine gets the status of its own
probe outcome (the oracle is indexed by position in the snapshot); a
raised probe is caught per machine and writes the error status. -/
def check_cycle (probe : Nat → PingResult) (ms : List Machine) : List Machine :=
  match ms with
  | [] => []
  | m :: rest =>
    { m with status := probe_status (probe 0) } ::
      check_cycle (fun i => probe (i + 1)) rest

/-- Outcome of send_magic_packet: returned, or raised with a message. -/
inductive SendResult where
  | ok
  | raises (e : String)
deriving DecidableEq

/-- Result of the wake handler: the (untouched) registry, HTTP status
code, response body, save flag. -/
structure WakeResult where
  machines : List Machine
  code : Nat
  body : String
  saved : Bool
deriving DecidableEq

/-- main.py lines 77-87 (wake_machine): a missing or empty mac answers
400; otherwise send_magic_packet is attempted, a raised error answers
500 with the error text, success answers 200.  The registry is never
touched and save_data is never called. -/
def wake_machine (ms : List Machine) (mac : Option String) (send : SendResult) : WakeResult :=
  match mac with
  | some m =>
    if m ≠ "" then
      match send with
      | .ok => { machines := ms, code := 200, body := "Packet sent to " ++ m, saved := false }
      | .raises e => { machines := ms, code := 500, body := e, saved := false }
    else
      { machines := ms, code := 400, body := "No MAC", saved := false }
  | none => { machines := ms, code := 400, body := "No MAC", saved := false }

/-- JSON values as written by json.dump with ensure_ascii=False: string
content (including non-ASCII) is carried verbatim. -/
inductive Jval where
  | num (n : Nat)
  | str (s : String)
  | arr (elems : List Jval)
  | obj (fields : List (String × Jval))

/-- The JSON object json.dump writes for one machine dict. -/
def encode_machine (m : Machine) : Jval :=
  .obj [("id", .num m.id), ("ip", .str m.ip), ("mac", .str m.mac),
        ("name", .str m.name), ("user", .str m.user), ("status", .str m.status)]

/-- Key lookup in a JSON object, as json.load reconstructs dict access. -/
def jlookup (fields : List (String × Jval)) (key : String) : Option Jval :=
  match fields with
  | [] => none
  | (k, v) :: rest => if k = key then some v else jlookup rest key

def as_num (j : Jval) : Option Nat :=
  match j with
  | .num n => some n
  | _ => none

def as_str (j : Jval) : Option String :=
  match j with
  | .str s => some s
  | _ => none

/-- Reading one machine dict back from its JSON object. -/
def decode_machine (j : Jval) : Option Machine :=
  match j with
  | .obj fs => do
    let i ← as_num (← jlookup fs "id")
    let ip ← as_str (← jlookup fs "ip")
    let mac ← as_str (← jlookup fs "mac")
    let name ← as_str (← jlookup fs "name")
    let user ← as_str (← jlookup fs "user")
    let status ← as_str (← jlookup fs "status")
    pure { id := i, ip := ip, mac := mac, name := name, user := user, status := status }
  | _ => none

def decode_list (js : List Jval) : Option (List Machine) :=
  match js with
  | [] => some []
  | j :: rest => do
    let m ← decode_machine j
    let ms ← decode_list rest
    pure (m :: ms)

/-- main.py lines 26-29 (save_data): the JSON document written to the
data file for the registry snapshot. -/
def save_data (ms : List Machine) : Jval :=
  .arr (ms.map encode_machine)

/-- main.py lines 18-24 (load_data): reading the registry back from
the stored JSON document. -/
def load_data (j : Jval) : Option (List Machine) :=
  match j with
  | .arr js => decode_list js
  | _ => none

/-- A structural operation on the registry, for stating reachability
invariants over handler sequences. -/
inductive Op where
  | add (data : AddRequest) (det : DetectResult)
  | update (machine_id : Nat) (data : UpdateRequest) (det : DetectResult)
  | delete (machine_id : Nat)

/-- The registry after one handler call. -/
def apply_op (ms : List Machine) (op : Op) : List Machine :=
  match op with
  | .add data det => (add_machine ms data det).machines
  | .update mid data det => (update_machine ms mid data det).machines
  | .delete mid => (delete_machine ms mid).machines

/-- The registry after a sequence of handler calls. -/
def run_ops (ms : List Machine) (ops : List Op) : List Machine :=
  match ops with
  | [] => ms
  | op :: rest => run_ops (apply_op ms op) rest

/-- The mac the re-resolution block of update_machine stores, per
detection outcome: a detected value passing the filter, else empty. -/
def resolved_mac (det : DetectResult) : String :=
  match det with
  | .raises => ""
  | .value (some d) => if is_valid_mac d then d else ""
  | .value none => ""

/-- The message the re-resolution block of update_machine produces per
detection outcome (an exception leaves the initial success message). -/
def resolved_message (det : DetectResult) : String :=
  match det with
  | .raises => "Machine updated successfully."
  | .value (some d) =>
    if is_valid_mac d then "Updated. MAC address auto-detected: " ++ d
    else "Updated. Warning: Could not resolve valid MAC address."
  | .value none => "Updated. Warning: Could not resolve valid MAC address."

/-- The validity discipline the spec asserts for a stored mac: empty or
passing the filter. -/
def mac_ok (s : String) : Bool :=
  if s = "" then true else is_valid_mac s

/-- The caller-supplied mac of an operation is itself empty (after
stripping) or passes the filter. -/
def op_mac_ok (op : Op) : Bool :=
  match op with
  | .add data _ => mac_ok (strip (data.mac.getD ""))
  | .update _ data _ =>
    match data.mac with
    | none => true
    | some s => mac_ok (strip s)
  | .delete _ => true

/-! ## Helper lemmas -/

theorem resolve_update_mac (m1 : Machine) (det : DetectResult) :
    (resolve_update m1 det).1.mac = resolved_mac det ∧
    (resolve_update m1 det).2 = resolved_message det := by
  cases det with
  | raises => simp [resolve_update, resolved_mac, resolved_message]
  | value r =>
    cases r with
    | none => simp [resolve_update, resolved_mac, resolved_message]
    | some d =>
      by_cases h : is_valid_mac d <;>
        simp [resolve_update, resolved_mac, resolved_message, h]

theorem update_machine_found (pre post : List Machine) (m : Machine) (mid : Nat)
    (data : UpdateRequest) (det : DetectResult)
    (hpre : ∀ x ∈ pre, x.id ≠ mid) (hm : m.id = mid) :
    update_machine (pre ++ m :: post) mid data det =
      { machines := pre ++ (apply_update m data det).1 :: post,
        found := true, machine := some (apply_update m data det).1,
        message := (apply_update m data det).2, code := 200, saved := true } := by
  induction pre with
  | nil => simp [update_machine, hm]
  | cons x xs ih =>
    have hx : ¬ x.id = mid := hpre x (List.mem_cons_self x xs)
    rw [List.cons_append]
    simp only [update_machine, hx, if_false]
    rw [ih (fun y hy => hpre y (List.mem_cons_of_mem x hy))]
    rfl

theorem apply_update_resolve_case (m : Machine) (data : UpdateRequest) (det : DetectResult)
    (s : String) (hip : data.ip = none) (hipne : m.ip ≠ "")
    (hmac : data.mac = some s) (hs : strip s = "") :
    (apply_update m data det).1.mac = resolved_mac det ∧
    (apply_update m data det).2 = resolved_message det := by
  have h := resolve_update_mac { m with ip := m.ip } det
  simp [apply_update, hip, hmac, hs, hipne]
  constructor
  · exact h.1
  · exact h.2

theorem mac_ok_empty : mac_ok "" = true := rfl

theorem resolved_mac_ok (det : DetectResult) : mac_ok (resolved_mac det) = true := by
  cases det with
  | raises => rfl
  | value r =>
    cases r with
    | none => rfl
    | some d =>
      by_cases hd : is_valid_mac d <;> simp [resolved_mac, mac_ok, hd]

theorem resolve_add_ok (mac0 : String) (det : DetectResult) (h : mac_ok mac0 = true) :
    mac_ok (resolve_add mac0 det).1 = true := by
  cases det with
  | raises => exact h
  | value r =>
    cases r with
    | none => exact h
    | some d =>
      cases hd : is_valid_mac d
      · simpa [resolve_add, hd] using h
      · simp [resolve_add, hd, mac_ok]

theorem resolve_update_ok (m1 : Machine) (det : DetectResult) :
    mac_ok (resolve_update m1 det).1.mac = true := by
  rw [(resolve_update_mac m1 det).1]
  exact resolved_mac_ok det

theorem apply_update_mac_ok (m : Machine) (data : UpdateRequest) (det : DetectResult)
    (hm : mac_ok m.mac = true)
    (hd : ∀ s, data.mac = some s → mac_ok (strip s) = true) :
    mac_ok (apply_update m data det).1.mac = true := by
  cases hmac : data.mac with
  | none => simpa [apply_update, hmac] using hm
  | some s =>
    simp only [apply_update, hmac]
    by_cases hc : strip s = "" ∧ (data.ip.getD m.ip) ≠ ""
    · simp only [if_pos hc]
      simpa using resolve_update_ok { m with ip := data.ip.getD m.ip } det
    · simp only [if_neg hc]
      simpa using hd s hmac

theorem add_machine_mac_ok (ms : List Machine) (data : AddRequest) (det : DetectResult)
    (h0 : ∀ m ∈ ms, mac_ok m.mac = true)
    (h : mac_ok (strip (data.mac.getD "")) = true) :
    ∀ x ∈ (add_machine ms data det).machines, mac_ok x.mac = true := by
  intro x hx
  simp only [add_machine, List.mem_append, List.mem_singleton] at hx
  rcases hx with hx | hx
  · exact h0 x hx
  · subst hx
    by_cases hc : strip (data.ip.getD "") ≠ "" ∧ strip (data.mac.getD "") = ""
    · simp only [if_pos hc]
      exact resolve_add_ok _ det (by rw [hc.2]; exact mac_ok_empty)
    · simp only [if_neg hc]
      exact h

theorem update_machine_mac_ok (ms : List Machine) (mid : Nat)
    (data : UpdateRequest) (det : DetectResult)
    (h0 : ∀ m ∈ ms, mac_ok m.mac = true)
    (hd : ∀ s, data.mac = some s → mac_ok (strip s) = true) :
    ∀ x ∈ (update_machine ms mid data det).machines, mac_ok x.mac = true := by
  induction ms with
  | nil => intro x hx; simp [update_machine] at hx
  | cons m rest ih =>
    intro x hx
    by_cases hmid : m.id = mid
    · simp only [update_machine, if_pos hmid] at hx
      rcases List.mem_cons.mp hx with rfl | hx
      · exact apply_update_mac_ok m data det (h0 m (List.mem_cons_self m rest)) hd
      · exact h0 x (List.mem_cons_of_mem m hx)
    · simp only [update_machine, if_neg hmid] at hx
      rcases List.mem_cons.mp hx with rfl | hx
      · exact h0 x (List.mem_cons_self x rest)
      · exact ih (fun y hy => h0 y (List.mem_cons_of_mem m hy)) x hx

theorem delete_machine_mac_ok (ms : List Machine) (mid : Nat)
    (h0 : ∀ m ∈ ms, mac_ok m.mac = true) :
    ∀ x ∈ (delete_machine ms mid).machines, mac_ok x.mac = true := by
  intro x hx
  exact h0 x (List.mem_of_mem_filter hx)

theorem apply_op_mac_ok (ms : List Machine) (op : Op)
    (h0 : ∀ m ∈ ms, mac_ok m.mac = true) (hop : op_mac_ok op = true) :
    ∀ x ∈ apply_op ms op, mac_ok x.mac = true := by
  cases op with
  | add data det =>
    exact add_machine_mac_ok ms data det h0 (by simpa [op_mac_ok] using hop)
  | update mid data det =>
    refine update_machine_mac_ok ms mid data det h0 ?_
    intro s hs
    simpa [op_mac_ok, hs] using hop
  | delete mid => exact delete_machine_mac_ok ms mid h0

theorem foldl_max_le (l : List Nat) (a : Nat) : a ≤ l.foldl Nat.max a := by
  induction l generalizing a with
  | nil => exact Nat.le_refl a
  | cons x xs ih => exact Nat.le_trans (Nat.le_max_left a x) (ih (Nat.max a x))

theorem mem_le_foldl_max (l : List Nat) (a x : Nat) (hx : x ∈ l) :
    x ≤ l.foldl Nat.max a := by
  induction l generalizing a with
  | nil => cases hx
  | cons y ys ih =>
    rcases List.mem_cons.mp hx with h | h
    · subst h
      exact Nat.le_trans (Nat.le_max_right a x) (foldl_max_le ys (Nat.max a x))
    · exact ih (Nat.max a y) h

theorem foldl_max_attained (l : List Nat) (a : Nat) :
    l.foldl Nat.max a = a ∨ l.foldl Nat.max a ∈ l := by
  induction l generalizing a with
  | nil => exact Or.inl rfl
  | cons x xs ih =>
    rcases ih (Nat.max a x) with h | h
    · rw [List.foldl_cons, h]
      rcases Nat.le_total a x with hax | hxa
      · have hmx : Nat.max a x = x := Nat.max_eq_right hax
        exact Or.inr (by rw [hmx]; exact List.mem_cons_self x xs)
      · have hmx : Nat.max a x = a := Nat.max_eq_left hxa
        exact Or.inl hmx
    · exact Or.inr (List.mem_cons_of_mem x (by rw [List.foldl_cons]; exact h))

theorem new_id_gt (ms : List Machine) (m : Machine) (hm : m ∈ ms) :
    m.id < new_id ms := by
  cases ms with
  | nil => cases hm
  | cons x xs =>
    have h1 : m.id ∈ ((x :: xs).map Machine.id) := List.mem_map_of_mem Machine.id hm
    have h2 := mem_le_foldl_max ((x :: xs).map Machine.id) 0 m.id h1
    exact Nat.lt_succ_of_le h2

theorem new_id_eq_succ_mem (ms : List Machine) (h : ms ≠ []) :
    ∃ m ∈ ms, new_id ms = m.id + 1 := by
  cases ms with
  | nil => exact absurd rfl h
  | cons x xs =>
    rcases foldl_max_attained ((x :: xs).map Machine.id) 0 with h0 | hmem
    · refine ⟨x, List.mem_cons_self x xs, ?_⟩
      have hx : x.id ≤ ((x :: xs).map Machine.id).foldl Nat.max 0 :=
        mem_le_foldl_max _ 0 x.id (List.mem_map_of_mem Machine.id (List.mem_cons_self x xs))
      rw [h0] at hx
      have hx0 : x.id = 0 := Nat.le_zero.mp hx
      have hdef : new_id (x :: xs) = ((x :: xs).map Machine.id).foldl Nat.max 0 + 1 := rfl
      rw [hdef, h0, hx0]
    · rcases List.mem_map.mp hmem with ⟨m, hm, hid⟩
      refine ⟨m, hm, ?_⟩
      have hdef : new_id (x :: xs) = ((x :: xs).map Machine.id).foldl Nat.max 0 + 1 := rfl
      rw [hdef, ← hid]

theorem add_machine_ids (ms : List Machine) (data : AddRequest) (det : DetectResult) :
    ((add_machine ms data det).machines).map Machine.id =
      ms.map Machine.id ++ [new_id ms] := by
  simp [add_machine]

theorem add_machine_id (ms : List Machine) (data : AddRequest) (det : DetectResult) :
    (add_machine ms data det).machine.id = new_id ms := rfl

theorem add_machine_nodup (ms : List Machine) (data : AddRequest) (det : DetectResult)
    (h0 : (ms.map Machine.id).Nodup) :
    (((add_machine ms data det).machines).map Machine.id).Nodup := by
  rw [add_machine_ids]
  refine List.Nodup.append h0 (List.nodup_singleton _) ?_
  intro a ha hb
  rcases List.mem_map.mp ha with ⟨m, hm, rfl⟩
  have hb' := List.mem_singleton.mp hb
  have hlt := new_id_gt ms m hm
  omega

theorem resolve_update_id (m1 : Machine) (det : DetectResult) :
    (resolve_update m1 det).1.id = m1.id := by
  cases det with
  | raises => rfl
  | value r =>
    cases r with
    | none => rfl
    | some d => cases hd : is_valid_mac d <;> simp [resolve_update, hd]

theorem apply_update_id (m : Machine) (data : UpdateRequest) (det : DetectResult) :
    (apply_update m data det).1.id = m.id := by
  cases hmac : data.mac with
  | none => simp [apply_update, hmac]
  | some s =>
    simp only [apply_update, hmac]
    by_cases hc : strip s = "" ∧ (data.ip.getD m.ip) ≠ ""
    · simp only [if_pos hc]
      simpa using resolve_update_id { m with ip := data.ip.getD m.ip } det
    · simp only [if_neg hc]

theorem update_machine_ids (ms : List Machine) (mid : Nat)
    (data : UpdateRequest) (det : DetectResult) :
    ((update_machine ms mid data det).machines).map Machine.id = ms.map Machine.id := by
  induction ms with
  | nil => rfl
  | cons m rest ih =>
    by_cases h : m.id = mid
    · simp [update_machine, if_pos h, apply_update_id]
    · simp [update_machine, if_neg h, ih]

theorem delete_machine_nodup (ms : List Machine) (mid : Nat)
    (h0 : (ms.map Machine.id).Nodup) :
    (((delete_machine ms mid).machines).map Machine.id).Nodup := by
  have hsub : List.Sublist ((delete_machine ms mid).machines.map Machine.id)
      (ms.map Machine.id) :=
    List.Sublist.map Machine.id (List.filter_sublist ms)
  exact h0.sublist hsub

theorem apply_op_nodup (ms : List Machine) (op : Op)
    (h0 : (ms.map Machine.id).Nodup) :
    ((apply_op ms op).map Machine.id).Nodup := by
  cases op with
  | add data det => exact add_machine_nodup ms data det h0
  | update mid data det => rw [apply_op, update_machine_ids]; exact h0
  | delete mid => exact delete_machine_nodup ms mid h0

/-! ## Theorems -/

/-- C8: saving a registry snapshot and loading it back yields
field-for-field identical entries; the fields are arbitrary strings, so
non-ASCII text content in name and user is covered. -/
theorem save_load_roundtrip (ms : List Machine) :
    load_data (save_data ms) = some ms := by
  induction ms with
  | nil => rfl
  | cons m rest ih =>
    simp only [save_data, load_data, decode_list, List.map_cons]
    have h1 : decode_machine (encode_machine m) = some m := rfl
    simp only [load_data, save_data] at ih
    rw [h1]
    simp [decode_list, ih]

/-- C4: in one prober cycle, the machine at position i of the snapshot
gets status online when its own probe responded alive, offline when it
responded not alive, and error when it raised; the result at position i
is a function of probe i alone, so a raised probe of one machine never
changes the status any other machine receives. -/
theorem check_cycle_spec (probe : Nat → PingResult) (ms : List Machine) (i : Nat) :
    (check_cycle probe ms)[i]? =
      (ms[i]?).map (fun m =>
        { m with status :=
            match probe i with
            | .ok true => "online"
            | .ok false => "offline"
            | .raises => "error" }) := by
  induction ms generalizing probe i with
  | nil => simp [check_cycle]
  | cons m rest ih =>
    cases i with
    | zero => cases h : probe 0 <;> simp [check_cycle, probe_status, h]
    | succ n => simp [check_cycle, ih]

/-- C7: the wake handler leaves the registry untouched and never calls
save_data; a missing or empty mac answers the invalid-input code 400, a
raised transmission answers the failure code 500, and a delivered
transmission answers 200 with the success body. -/
theorem wake_machine_spec (ms : List Machine) (mac : Option String) (send : SendResult) :
    (wake_machine ms mac send).machines = ms ∧
    (wake_machine ms mac send).saved = false ∧
    ((mac = none ∨ mac = some "") → (wake_machine ms mac send).code = 400) ∧
    (∀ s, mac = some s → s ≠ "" → ∀ e, send = SendResult.raises e →
      (wake_machine ms mac send).code = 500) ∧
    (∀ s, mac = some s → s ≠ "" → send = SendResult.ok →
      (wake_machine ms mac send).code = 200 ∧
      (wake_machine ms mac send).body = "Packet sent to " ++ s) := by
  cases mac with
  | none => simp [wake_machine]
  | some s =>
    by_cases h : s = "" <;> cases send <;> simp [wake_machine, h]

/-- Witness for C7 at a concrete input: an empty registry, a present
non-empty mac and a delivered transmission answer 200. -/
theorem wake_machine_spec_witness :
    (wake_machine [] (some "AA:BB:CC:DD:EE:11") SendResult.ok).code = 200 :=
  ((wake_machine_spec [] (some "AA:BB:CC:DD:EE:11") SendResult.ok).2.2.2.2
    "AA:BB:CC:DD:EE:11" rfl (by decide) rfl).1

/-- C10: at creation, a name or user supplied as the empty string is
indistinguishable from an absent field; both produce the placeholder
("New Host" for name, "Unknown" for user), as the handler runs the
field through Python `or`. -/
theorem add_placeholder_fields (ms : List Machine) (ip mac u n : Option String) (det : DetectResult) :
    add_machine ms { ip := ip, mac := mac, name := some "", user := u } det =
      add_machine ms { ip := ip, mac := mac, name := none, user := u } det ∧
    add_machine ms { ip := ip, mac := mac, name := n, user := some "" } det =
      add_machine ms { ip := ip, mac := mac, name := n, user := none } det ∧
    (add_machine ms { ip := ip, mac := mac, name := some "", user := u } det).machine.name = "New Host" ∧
    (add_machine ms { ip := ip, mac := mac, name := n, user := some "" } det).machine.user = "Unknown" := by
  refine ⟨?_, ?_, ?_, ?_⟩ <;> simp [add_machine, pyOr]

/-- C6: adding with an empty (stripped) mac and a non-empty (stripped)
ip, when detection yields the all-zero sentinel, stores the empty
string as mac — never the sentinel — and answers the warning message,
which differs from the success message. -/
theorem add_allzero_detection (ms : List Machine) (data : AddRequest)
    (hip : strip (data.ip.getD "") ≠ "") (hmac : strip (data.mac.getD "") = "") :
    (add_machine ms data (DetectResult.value (some "00:00:00:00:00:00"))).machine.mac = "" ∧
    (add_machine ms data (DetectResult.value (some "00:00:00:00:00:00"))).message =
      "Machine added. Warning: Could not auto-detect valid MAC address." ∧
    (add_machine ms data (DetectResult.value (some "00:00:00:00:00:00"))).message ≠
      "Machine added successfully." := by
  refine ⟨?_, ?_, ?_⟩ <;>
    simp [add_machine, hip, hmac, resolve_add, is_valid_mac]

/-- Witness for C6 at a concrete input. -/
theorem add_allzero_detection_witness :
    (add_machine [] { ip := some "10.0.0.7", mac := none, name := none, user := none }
      (DetectResult.value (some "00:00:00:00:00:00"))).machine.mac = "" :=
  (add_allzero_detection [] { ip := some "10.0.0.7", mac := none, name := none, user := none }
    (by decide) (by decide)).1

/-- Counterexample for C2 as stated: deleting id 2 from a registry that
only holds id 1 leaves the registry unchanged, but the handler answers
the success outcome (code 200, success body — not the 404 not-found
outcome the update handler uses) and it does call save_data. -/
theorem delete_missing_cex :
    (delete_machine [{ id := 1, ip := "10.0.0.2", mac := "", name := "pc", user := "u", status := "offline" }] 2).machines =
      [{ id := 1, ip := "10.0.0.2", mac := "", name := "pc", user := "u", status := "offline" }] ∧
    (delete_machine [{ id := 1, ip := "10.0.0.2", mac := "", name := "pc", user := "u", status := "offline" }] 2).code = 200 ∧
    (delete_machine [{ id := 1, ip := "10.0.0.2", mac := "", name := "pc", user := "u", status := "offline" }] 2).success_body = true ∧
    (delete_machine [{ id := 1, ip := "10.0.0.2", mac := "", name := "pc", user := "u", status := "offline" }] 2).saved = true ∧
    (200 : Nat) ≠ 404 := by decide

/-- C2 amended: deleting an id absent from the registry leaves the
registry unchanged, but answers the same success outcome as any delete
and writes the snapshot to durable storage unconditionally. -/
theorem delete_missing_id (ms : List Machine) (mid : Nat)
    (h : ∀ m ∈ ms, m.id ≠ mid) :
    (delete_machine ms mid).machines = ms ∧
    (delete_machine ms mid).code = 200 ∧
    (delete_machine ms mid).success_body = true ∧
    (delete_machine ms mid).saved = true := by
  refine ⟨?_, rfl, rfl, rfl⟩
  simp only [delete_machine]
  rw [List.filter_eq_self]
  intro m hm
  simpa using h m hm

/-- Witness for the amended C2 at a concrete input. -/
theorem delete_missing_id_witness :
    (delete_machine [{ id := 1, ip := "10.0.0.2", mac := "", name := "pc", user := "u", status := "offline" }] 5).machines =
      [{ id := 1, ip := "10.0.0.2", mac := "", name := "pc", user := "u", status := "offline" }] :=
  (delete_missing_id [{ id := 1, ip := "10.0.0.2", mac := "", name := "pc", user := "u", status := "offline" }] 5
    (by decide)).1

/-- C9: when an update supplies the mac as the empty string and the
entry's ip is non-empty (and the update does not touch the ip), the
previous mac is never kept: the stored mac equals the freshly detected
address when it passes the filter, and the empty string when detection
raised, returned None, or returned a value failing the filter. -/
theorem update_empty_mac_resolves (pre post : List Machine) (m : Machine) (mid : Nat)
    (data : UpdateRequest) (det : DetectResult) (s : String)
    (hpre : ∀ x ∈ pre, x.id ≠ mid) (hm : m.id = mid)
    (hip : data.ip = none) (hipne : m.ip ≠ "")
    (hmac : data.mac = some s) (hs : strip s = "") :
    (update_machine (pre ++ m :: post) mid data det).machine =
      some (apply_update m data det).1 ∧
    (apply_update m data det).1.mac = resolved_mac det ∧
    (det = DetectResult.raises → (apply_update m data det).1.mac = "") ∧
    (∀ r, det = DetectResult.value r → is_valid_mac_opt r = false →
      (apply_update m data det).1.mac = "") ∧
    (∀ d, det = DetectResult.value (some d) → is_valid_mac d = true →
      (apply_update m data det).1.mac = d) := by
  have hcase := apply_update_resolve_case m data det s hip hipne hmac hs
  refine ⟨?_, hcase.1, ?_, ?_, ?_⟩
  · rw [update_machine_found pre post m mid data det hpre hm]
  · rintro rfl; rw [hcase.1]; rfl
  · rintro r rfl hr
    rw [hcase.1]
    cases r with
    | none => rfl
    | some d =>
      simp only [is_valid_mac_opt] at hr
      simp [resolved_mac, hr]
  · rintro d rfl hd
    rw [hcase.1]
    simp [resolved_mac, hd]

/-- Witness for C9 at a concrete input: detection raising leaves the
empty string, not the old mac. -/
theorem update_empty_mac_resolves_witness :
    (apply_update
      { id := 1, ip := "10.0.0.9", mac := "AA:BB:CC:DD:EE:FF", name := "pc9", user := "u9", status := "offline" }
      { ip := none, mac := some "", name := none, user := none }
      DetectResult.raises).1.mac = "" :=
  (update_empty_mac_resolves [] [] _ 1 _ DetectResult.raises ""
    (by simp) rfl rfl (by decide) rfl (by decide)).2.2.1 rfl

/-- Counterexample for C5 as stated: the mac " " supplied on update is
a non-empty string, yet the handler does not store its trimmed value —
it runs the resolution procedure: with a valid detected address the
stored mac is that address, and the result depends on the detection
outcome. -/
theorem update_whitespace_mac_cex :
    ((update_machine
        [{ id := 1, ip := "10.0.0.8", mac := "AA:AA:AA:AA:AA:AA", name := "pc8", user := "u8", status := "offline" }]
        1 { ip := none, mac := some " ", name := none, user := none }
        (DetectResult.value (some "AA:BB:CC:DD:EE:22"))).machine).map Machine.mac =
      some "AA:BB:CC:DD:EE:22" ∧
    (" " : String) ≠ "" ∧
    strip " " = "" ∧
    ("AA:BB:CC:DD:EE:22" : String) ≠ strip " " ∧
    ((update_machine
        [{ id := 1, ip := "10.0.0.8", mac := "AA:AA:AA:AA:AA:AA", name := "pc8", user := "u8", status := "offline" }]
        1 { ip := none, mac := some " ", name := none, user := none }
        (DetectResult.value none)).machine).map Machine.mac = some "" := by decide

/-- C5 amended: the update handler branches on the stripped mac — a
supplied mac that strips to the empty string (with a non-empty ip)
triggers the resolution procedure, whose outcome decides the stored mac
and the message; a supplied mac that is non-empty after stripping is
stored as the stripped value, and the result does not depend on the
detection oracle at all (no resolution attempt). -/
theorem update_mac_trim_branching (pre post : List Machine) (m : Machine) (mid : Nat)
    (data : UpdateRequest) (det : DetectResult) (s : String)
    (hpre : ∀ x ∈ pre, x.id ≠ mid) (hm : m.id = mid)
    (hip : data.ip = none) (hipne : m.ip ≠ "") (hmac : data.mac = some s) :
    (strip s = "" →
      (update_machine (pre ++ m :: post) mid data det).machine =
        some (apply_update m data det).1 ∧
      (apply_update m data det).1.mac = resolved_mac det ∧
      (update_machine (pre ++ m :: post) mid data det).message = resolved_message det) ∧
    (strip s ≠ "" →
      (update_machine (pre ++ m :: post) mid data det).machine =
        some (apply_update m data det).1 ∧
      (apply_update m data det).1.mac = strip s ∧
      (∀ det', update_machine (pre ++ m :: post) mid data det' =
        update_machine (pre ++ m :: post) mid data det)) := by
  constructor
  · intro hs
    have hcase := apply_update_resolve_case m data det s hip hipne hmac hs
    refine ⟨?_, hcase.1, ?_⟩
    · rw [update_machine_found pre post m mid data det hpre hm]
    · rw [update_machine_found pre post m mid data det hpre hm]
      exact hcase.2
  · intro hs
    have hmac' : (apply_update m data det).1.mac = strip s := by
      simp [apply_update, hip, hmac, hs]
    refine ⟨?_, hmac', ?_⟩
    · rw [update_machine_found pre post m mid data det hpre hm]
    · intro det'
      rw [update_machine_found pre post m mid data det hpre hm,
          update_machine_found pre post m mid data det' hpre hm]
      have heq : apply_update m data det' = apply_update m data det := by
        simp [apply_update, hip, hmac, hs]
      rw [heq]

/-- Witness for the amended C5 at a concrete input: a mac that is
non-empty after stripping is stored as the stripped value. -/
theorem update_mac_trim_branching_witness :
    (apply_update
      { id := 2, ip := "10.0.0.4", mac := "", name := "pc4", user := "u4", status := "offline" }
      { ip := none, mac := some "AA:BB:CC:DD:EE:44", name := none, user := none }
      DetectResult.raises).1.mac = strip "AA:BB:CC:DD:EE:44" :=
  ((update_mac_trim_branching [] [] _ 2 _ DetectResult.raises "AA:BB:CC:DD:EE:44"
    (by simp) rfl rfl (by decide) rfl).2 (by decide)).2.1

/-- Counterexample for C1 as stated: a caller-supplied mac is stored
verbatim with no validation, so one add reaches a registry whose entry
holds the all-zero sentinel, which is non-empty and fails the filter. -/
theorem mac_filter_invariant_cex :
    (add_machine []
      { ip := some "10.0.0.5", mac := some "00:00:00:00:00:00", name := none, user := none }
      (DetectResult.value none)).machine.mac = "00:00:00:00:00:00" ∧
    ((add_machine []
      { ip := some "10.0.0.5", mac := some "00:00:00:00:00:00", name := none, user := none }
      (DetectResult.value none)).machine ∈
      (add_machine []
        { ip := some "10.0.0.5", mac := some "00:00:00:00:00:00", name := none, user := none }
        (DetectResult.value none)).machines) ∧
    is_valid_mac "00:00:00:00:00:00" = false ∧
    ("00:00:00:00:00:00" : String) ≠ "" := by decide

/-- C1 amended: every registry state reachable by add, update and
delete operations keeps every entry's mac empty or passing the validity
filter, provided every caller-supplied mac is itself empty after
stripping or passes the filter; the auto-resolution paths preserve the
discipline unconditionally, but a caller-supplied non-empty mac is
stored verbatim without validation. -/
theorem mac_filter_invariant (ms : List Machine) (ops : List Op)
    (h0 : ∀ m ∈ ms, mac_ok m.mac = true)
    (hops : ∀ op ∈ ops, op_mac_ok op = true) :
    ∀ m ∈ run_ops ms ops, mac_ok m.mac = true := by
  induction ops generalizing ms with
  | nil => exact h0
  | cons op rest ih =>
    exact ih (apply_op ms op)
      (apply_op_mac_ok ms op h0 (hops op (List.mem_cons_self op rest)))
      (fun o ho => hops o (List.mem_cons_of_mem op ho))

/-- Witness for the amended C1 on a concrete two-operation run. -/
theorem mac_filter_invariant_witness :
    mac_ok ((run_ops []
      [Op.add { ip := some "10.0.0.3", mac := none, name := none, user := none }
         (DetectResult.value (some "AA:BB:CC:DD:EE:33")),
       Op.update 1 { ip := none, mac := some "", name := none, user := none }
         DetectResult.raises]).headI.mac) = true :=
  mac_filter_invariant []
    [Op.add { ip := some "10.0.0.3", mac := none, name := none, user := none }
       (DetectResult.value (some "AA:BB:CC:DD:EE:33")),
     Op.update 1 { ip := none, mac := some "", name := none, user := none }
       DetectResult.raises]
    (by simp) (by decide) _ (by decide)

/-- C3: starting from a registry with pairwise-distinct ids, any
sequence of operations (so in particular any sequence of adds and
deletes, and any of its intermediate states, each being the result of
one such sequence) keeps the ids pairwise distinct; moreover add
assigns id 1 on the empty registry, and on a non-empty registry an id
strictly greater than every existing id and equal to one existing id
plus one — that is, the current maximum plus one. -/
theorem ids_nodup_and_assignment (ms : List Machine) (ops : List Op)
    (h0 : (ms.map Machine.id).Nodup) :
    ((run_ops ms ops).map Machine.id).Nodup ∧
    (∀ data det, (add_machine [] data det).machine.id = 1) ∧
    (∀ (ms2 : List Machine) (data : AddRequest) (det : DetectResult), ms2 ≠ [] →
      (∀ m ∈ ms2, m.id < (add_machine ms2 data det).machine.id) ∧
      (∃ m ∈ ms2, (add_machine ms2 data det).machine.id = m.id + 1)) := by
  refine ⟨?_, fun data det => rfl, ?_⟩
  · induction ops generalizing ms with
    | nil => exact h0
    | cons op rest ih => exact ih (apply_op ms op) (apply_op_nodup ms op h0)
  · intro ms2 data det hne
    constructor
    · intro m hm
      rw [add_machine_id]
      exact new_id_gt ms2 m hm
    · rw [add_machine_id]
      exact new_id_eq_succ_mem ms2 hne

/-- Witness for C3 on a concrete add-add-delete run. -/
theorem ids_nodup_and_assignment_witness :
    ((run_ops []
      [Op.add { ip := some "10.0.0.1", mac := none, name := none, user := none }
         DetectResult.raises,
       Op.add { ip := some "10.0.0.2", mac := none, name := none, user := none }
         DetectResult.raises,
       Op.delete 1]).map Machine.id).Nodup :=
  (ids_nodup_and_assignment []
    [Op.add { ip := some "10.0.0.1", mac := none, name := none, user := none }
       DetectResult.raises,
     Op.add { ip := some "10.0.0.2", mac := none, name := none, user := none }
       DetectResult.raises,
     Op.delete 1] (by simp)).1

end Wol
